import Mathlib

/-!
Shallow embedding of src/src/discord/DiscordUtil.ts (mx-puppet-discord).

The embedding models the five components of the file:
  sendToDiscord (delivery strategist), discordEscape (escape),
  updatePresence (presence translator), getUserById (user resolver),
  getDiscordChan (channel resolver) and iterateGuildStructure (guild walker).

External collaborators (the discord client library, the bridge runtime and
the markup parser) are modelled as oracle fields of a World structure:
each fallible remote call is an Except value recording whether that call,
if performed, succeeds or throws.  JavaScript truthiness on string fields
is modelled by comparing with the empty string; optional object fields are
Option values.
-/

deriving instance DecidableEq for Except

/-- Identity of the home-network user a relayed message is sent for
(ISendingUser of mx-puppet-bridge): displayname, avatarUrl (empty string
models a missing avatar, matching the JS truthiness test) and mxid. -/
structure SendingUser where
  displayname : String
  avatarUrl : String
  mxid : String
deriving DecidableEq

/-- Image part of a rich embed (Discord.MessageEmbedImage).  The source
sometimes interpolates the whole image object into a template string. -/
structure EmbedImage where
  url : String
deriving DecidableEq

/-- Rich-embed message payload (Discord.MessageEmbed as used by the file):
title and description with empty string for the JS-falsy case, optional
image. -/
structure InEmbed where
  title : String
  description : String
  image : Option EmbedImage
deriving DecidableEq

/-- File payload (IDiscordSendFile): filename, image flag and url. The
byte buffer is irrelevant to every claim and is omitted. -/
structure SendFile where
  filename : String
  isImage : Bool
  url : String
deriving DecidableEq

/-- The msg parameter of sendToDiscord: string, MessageEmbed or file. -/
inductive Payload
  | text (s : String)
  | embed (e : InEmbed)
  | file (f : SendFile)
deriving DecidableEq

/-- Reply context (the replyEmbed parameter): author name and description
text of the message being replied to. -/
structure ReplyEmbed where
  authorName : String
  description : String
deriving DecidableEq

/-- The sendThing local of sendToDiscord: the string or MessageEmbed is
kept, a file becomes a MessageAttachment carrying its filename. -/
inductive SendThing
  | str (s : String)
  | embed (e : InEmbed)
  | attachment (filename : String)
deriving DecidableEq

/-- A webhook as far as the file inspects it: its name. -/
structure Hook where
  name : String
deriving DecidableEq

/-- Channel kinds sendToDiscord can receive. Only the text (guild) kind
supports webhooks. -/
inductive ChanKind
  | text
  | dm
  | groupDm
deriving DecidableEq

/-- Embed kept in the webhook options embeds list: either the message
payload embed (unshifted to the front) or the reply embed. -/
inductive HookEmbed
  | msg (e : InEmbed)
  | reply (r : ReplyEmbed)
deriving DecidableEq

/-- What hook.send receives: username and avatar substituted from the
sending identity, optional string content, embeds and attached files. -/
structure HookMessage where
  username : String
  avatarURL : Option String
  content : Option String
  embeds : List HookEmbed
  files : List String
deriving DecidableEq

/-- The synthetic embed built on the embed-relay path, with the fields the
source sets: title, description, image, added fields and the author
triple. -/
structure OutEmbed where
  title : Option String
  description : Option String
  image : Option String
  fields : List (String × String)
  authorName : Option String
  authorAvatar : Option String
  authorUrl : Option String
deriving DecidableEq

/-- Description of the one remote send a call to sendToDiscord performs:
direct send, webhook send, embed send or prefixed plain-text send. -/
inductive Sent
  | direct (thing : SendThing) (withReply : Option ReplyEmbed)
  | hook (m : HookMessage)
  | embed (e : OutEmbed)
  | plain (content : String)
deriving DecidableEq

/-- Oracle environment for one sendToDiscord call: the escape function
(discordEscape delegates to the markup parser), whether the acting client
account is a bot, and the outcome of each remote call the code may make.
fetchWebhooksResult is the webhook list of the channel (or the thrown
error), createWebhookResult the created webhook (or the thrown error),
hookSendResult and chanSendResult whether hook.send and chan.send throw. -/
structure World where
  esc : String → String
  clientUserBot : Bool
  fetchWebhooksResult : Except String (List Hook)
  createWebhookResult : Except String Hook
  hookSendResult : Except String Unit
  chanSendResult : Except String Unit

/-- Lines 66-71: a string or MessageEmbed payload is sent as is, a file
becomes a MessageAttachment of its buffer and filename. -/
def mkSendThing : Payload → SendThing
  | Payload.text s => SendThing.str s
  | Payload.embed e => SendThing.embed e
  | Payload.file f => SendThing.attachment f.filename

/-- The avatarUrl JS-truthiness coercion (asUser.avatarUrl or undefined). -/
def avatarOpt (u : SendingUser) : Option String :=
  if u.avatarUrl == "" then none else some u.avatarUrl

/-- Lines 75-78: in direct (non-relay) mode the reply embed is attached
only when present and the acting account is a bot. -/
def directReply (w : World) (reply : Option ReplyEmbed) : Option ReplyEmbed :=
  if reply.isSome && w.clientUserBot then reply else none

/-- Lines 83-97: find the webhook named _matrix among the fetched hooks;
when absent try to create it.  A fetch error logs the warning about
missing webhook permissions, a create error logs the warning about the
failed creation; both errors are swallowed and yield no hook. -/
def resolveHook (w : World) : Option Hook × List String :=
  match w.fetchWebhooksResult with
  | Except.error _e => (none, ["Missing webhook permissions"])
  | Except.ok hooks =>
    match hooks.find? (fun h => h.name == "_matrix") with
    | some h => (some h, [])
    | none =>
      match w.createWebhookResult with
      | Except.error _e => (none, ["Unable to create \"_matrix\" webhook"])
      | Except.ok h => (some h, [])

/-- Lines 98-114: the webhook message.  Username and avatar come from the
sending identity (the display name is NOT escaped here), the reply embed
seeds the embeds list, a string payload rides as content, an attachment
goes into files, an embed payload is unshifted in front of the reply. -/
def mkHookMessage (u : SendingUser) (msg : Payload) (reply : Option ReplyEmbed) :
    HookMessage :=
  let baseEmbeds : List HookEmbed :=
    match reply with
    | some r => [HookEmbed.reply r]
    | none => []
  match mkSendThing msg with
  | SendThing.str s =>
    ⟨u.displayname, avatarOpt u, some s, baseEmbeds, []⟩
  | SendThing.attachment fn =>
    ⟨u.displayname, avatarOpt u, none, baseEmbeds, [fn]⟩
  | SendThing.embed e =>
    ⟨u.displayname, avatarOpt u, none, HookEmbed.msg e :: baseEmbeds, []⟩

/-- Lines 119-141: the synthetic embed of the embed-relay path.  A string
payload becomes the description; an embed payload with an image is
re-titled and re-imaged; an image file becomes title plus image; any other
file becomes a description naming the escaped filename and the url; a
reply with truthy description adds two fields; finally the author triple
is set from the sending identity (display name NOT escaped). -/
def mkBotEmbed (w : World) (u : SendingUser) (msg : Payload)
    (reply : Option ReplyEmbed) : OutEmbed :=
  let base : OutEmbed := ⟨none, none, none, [], none, none, none⟩
  let step1 : OutEmbed :=
    match msg with
    | Payload.text s => { base with description := some s }
    | Payload.embed e =>
      match e.image with
      | some img => { base with title := some e.title, image := some img.url }
      | none => base
    | Payload.file f =>
      if f.isImage then
        { base with title := some f.filename, image := some f.url }
      else
        { base with description := some ("Uploaded a file `" ++ w.esc f.filename
            ++ "`: " ++ f.url) }
  let step2 : OutEmbed :=
    match reply with
    | some r =>
      if r.description != "" then
        { step1 with fields := step1.fields ++ [("Replying to", r.authorName),
            ("Reply text", r.description)] }
      else step1
    | none => step1
  { step2 with
    authorName := some u.displayname,
    authorAvatar := avatarOpt u,
    authorUrl := some ("https://matrix.to/#/" ++ u.mxid) }

/-- JavaScript template interpolation of a MessageEmbedImage object (the
source interpolates the object itself, not its url, on lines 153 and
155): the default Object toString rendering. -/
def jsRenderImage (_img : EmbedImage) : String := "[object Object]"

/-- Lines 162-164: the block-quoted reply suffix appended when a reply
embed with truthy description is present. -/
def replySuffix : Option ReplyEmbed → String
  | some r => if r.description != "" then "\n>>> " ++ r.description else ""
  | none => ""

/-- Lines 143-164: the prefixed plain-text message.  The display name is
escaped; a text payload gets the bold-name prefix; an embed payload
contributes text only when it has an image (title escaped when truthy);
a file payload names its escaped filename and url; the reply suffix is
appended last. -/
def mkPlainMsg (w : World) (u : SendingUser) (msg : Payload)
    (reply : Option ReplyEmbed) : String :=
  let displayname := w.esc u.displayname
  let base : String :=
    match msg with
    | Payload.text s => "**" ++ displayname ++ "**: " ++ s
    | Payload.embed e =>
      match e.image with
      | some img =>
        if e.title != "" then
          "**" ++ displayname ++ "** uploaded a file `" ++ w.esc e.title ++ "`: "
            ++ jsRenderImage img
        else
          "**" ++ displayname ++ "** uploaded a file: " ++ jsRenderImage img
      | none => ""
    | Payload.file f =>
      "**" ++ displayname ++ "** uploaded a file `" ++ w.esc f.filename ++ "`: "
        ++ f.url
  base ++ replySuffix reply

/-- Lines 59-166, sendToDiscord.  Returns the outcome of the one remote
send the call performs (or the error that send threw) together with the
list of warnings logged.  Without a sending identity the payload goes out
directly; with one, a guild text channel first tries the webhook path
(errors during webhook lookup or creation are swallowed as warnings); a
resolved webhook makes hook.send the final word; otherwise a bot account
sends the synthetic embed and a non-bot account the prefixed plain
text. -/
def sendToDiscord (w : World) (kind : ChanKind) (msg : Payload)
    (asUser : Option SendingUser) (reply : Option ReplyEmbed) :
    Except String Sent × List String :=
  match asUser with
  | none =>
    (w.chanSendResult.map (fun _ => Sent.direct (mkSendThing msg) (directReply w reply)), [])
  | some u =>
    match (match kind with
           | ChanKind.text => resolveHook w
           | _ => (none, [])) with
    | (some _h, warns) =>
      (w.hookSendResult.map (fun _ => Sent.hook (mkHookMessage u msg reply)), warns)
    | (none, warns) =>
      if w.clientUserBot then
        (w.chanSendResult.map (fun _ => Sent.embed (mkBotEmbed w u msg reply)), warns)
      else
        (w.chanSendResult.map (fun _ => Sent.plain (mkPlainMsg w u msg reply)), warns)

/-- A discord user as far as this file inspects one: id and username. -/
structure DUser where
  id : String
  username : String
deriving DecidableEq

/-- A guild member wraps a user (m.user on line 307). -/
structure DMember where
  user : DUser
deriving DecidableEq

/-- Oracle environment for getUserById: the member lists of the guilds of
the client, the friends relationship list, and the outcome of
client.users.fetch for a given id (which may throw, or resolve with a
user, or resolve with nothing). -/
structure UserWorld where
  guilds : List (List DMember)
  friends : List DUser
  fetchUser : String → Except String (Option DUser)

/-- Lines 306-311: scan every guild member list for a member whose user id
matches. -/
def findInGuilds (guilds : List (List DMember)) (id : String) : Option DUser :=
  guilds.findSome? (fun ms => (ms.find? (fun m => m.user.id == id)).map (fun m => m.user))

/-- Lines 312-317: the relationships friends lookup by id. -/
def findFriend (friends : List DUser) (id : String) : Option DUser :=
  friends.find? (fun u => u.id == id)

/-- Lines 305-325, getUserById: guild membership scan, then friends list,
then client.users.fetch.  The fetch is awaited without a try/catch, so a
fetch rejection propagates to the caller; null is only reached when the
fetch resolves with nothing. -/
def getUserById (w : UserWorld) (id : String) : Except String (Option DUser) :=
  match findInGuilds w.guilds id with
  | some u => Except.ok (some u)
  | none =>
    match findFriend w.friends id with
    | some u => Except.ok (some u)
    | none =>
      match w.fetchUser id with
      | Except.error e => Except.error e
      | Except.ok (some u) => Except.ok (some u)
      | Except.ok none => Except.ok none

/-- A channel as stored in the client or guild channel caches: id and
kind.  The kind stands for the instanceof tests of the source. -/
inductive CChanKind
  | text
  | dm
  | groupDm
  | other
deriving DecidableEq

/-- Cached channel object. -/
structure CachedChan where
  id : String
  kind : CChanKind
deriving DecidableEq

/-- Result of getDiscordChan: a cached guild or group channel, or the DM
channel opened with the resolved user (identified by that user id). -/
inductive ResChan
  | cached (c : CachedChan)
  | dm (userId : String)
deriving DecidableEq

/-- Lines 40-45: iterate over all guilds, look the id up in each guild
channel table and keep it only when it is a text channel. -/
def guildScanChan (guildChans : List (List CachedChan)) (id : String) :
    Option ResChan :=
  guildChans.findSome? (fun gcs =>
    match gcs.find? (fun c => c.id == id) with
    | some c => if c.kind == CChanKind.text then some (ResChan.cached c) else none
    | none => none)

/-- The JS test id.startsWith("dm-") on line 31, expressed on the
character list so that concrete instances reduce in the kernel. -/
def hasDmPrefix (id : String) : Bool := id.data.take 3 == "dm-".data

/-- The JS expression id.substring("dm-".length) on line 49, on the
character list. -/
def stripDm (id : String) : String := String.mk (id.data.drop 3)

/-- Lines 28-57, getDiscordChan.  A non DM-prefixed id is looked up in the
client channel cache (kept when group or text), else scanned for in every
guild, else null.  A dm- prefixed id strips the prefix, resolves the rest
as a user via getUserById (whose thrown errors propagate) and opens the DM
channel with that user; null when the user cannot be resolved. -/
def getDiscordChan (uw : UserWorld) (cache : List CachedChan)
    (guildChans : List (List CachedChan)) (id : String) :
    Except String (Option ResChan) :=
  if !(hasDmPrefix id) then
    Except.ok (match cache.find? (fun c => c.id == id) with
      | some c =>
        if c.kind == CChanKind.groupDm || c.kind == CChanKind.text then
          some (ResChan.cached c)
        else guildScanChan guildChans id
      | none => guildScanChan guildChans id)
  else
    let lookupId := stripDm id
    match getUserById uw lookupId with
    | Except.error e => Except.error e
    | Except.ok none => Except.ok none
    | Except.ok (some u) => Except.ok (some (ResChan.dm u.id))

/-- The four presence status values of the remote client. -/
inductive PStatus
  | online
  | idle
  | dnd
  | offline
deriving DecidableEq

/-- The three-state home presence model. -/
inductive MatrixPresence
  | online
  | offline
  | unavailable
deriving DecidableEq

/-- Lines 183-188: the status mapping table. -/
def statusMap : PStatus → MatrixPresence
  | PStatus.online => MatrixPresence.online
  | PStatus.idle => MatrixPresence.unavailable
  | PStatus.dnd => MatrixPresence.unavailable
  | PStatus.offline => MatrixPresence.offline

/-- An activity emoji: its name. -/
structure DEmoji where
  name : String
deriving DecidableEq

/-- A presence activity: a type string such as PLAYING or CUSTOM_STATUS,
a name and a state (empty string for the JS-falsy case) and an optional
emoji. -/
structure DActivity where
  type : String
  name : String
  state : String
  emoji : Option DEmoji
deriving DecidableEq

/-- A presence: the optional user it belongs to, the status and the
activity list. -/
structure DPresence where
  user : Option DUser
  status : PStatus
  activities : List DActivity
deriving DecidableEq

/-- The JS expression lower.charAt(0).toUpperCase() + lower.substring(1)
on line 197: uppercase the first character, keep the rest. -/
def capFirstJS (s : String) : String :=
  match s.data with
  | [] => ""
  | c :: rest => String.mk (c.toUpper :: rest)

/-- Lines 194-209, the body of one loop iteration: a non custom-status
activity renders as the capitalized lowercased type followed by the name
when truthy; a custom status renders as emoji name (when present)
followed by state (when truthy); parts joined with a space. -/
def renderActivity (a : DActivity) : String :=
  if a.type != "CUSTOM_STATUS" then
    let lower := a.type.toLower
    String.intercalate " "
      ([capFirstJS lower] ++ (if a.name != "" then [a.name] else []))
  else
    String.intercalate " "
      ((match a.emoji with
        | some e => [e.name]
        | none => []) ++ (if a.state != "" then [a.state] else []))

/-- Lines 189-210, the activity loop.  The accumulator is the statusMsg
variable; the check at the top of every iteration returns from the whole
updatePresence call (none) when statusMsg is already non-empty, otherwise
the iteration overwrites statusMsg with the rendering of the current
activity. -/
def scanActivities : String → List DActivity → Option String
  | s, [] => some s
  | s, a :: rest =>
    if s != "" then none else scanActivities (renderActivity a) rest

/-- Lines 175-216, updatePresence, as the effect it performs: none when no
setter is invoked at all (missing puppet, missing presence or user, or the
early return inside the activity loop); some (mp, st) when
setUserPresence is called with mp, and setUserStatus is called exactly
when st is some. -/
def updatePresence (puppetFound : Bool) (presence : Option DPresence) :
    Option (MatrixPresence × Option String) :=
  if !puppetFound then none
  else
    match presence with
    | none => none
    | some p =>
      match p.user with
      | none => none
      | some _ =>
        match scanActivities "" p.activities with
        | none => none
        | some statusMsg =>
          some (statusMap p.status,
            if statusMsg != "" then some statusMsg else none)

/-- Guild channel kinds relevant to the walker: text channels, category
channels, everything else. -/
inductive GChanKind
  | text
  | category
  | other
deriving DecidableEq

/-- A guild channel: id, kind, parent category id (none for an
uncategorized channel) and whether the acting client account is among its
members. -/
structure GChannel where
  id : Nat
  kind : GChanKind
  parentID : Option Nat
  hasClient : Bool
deriving DecidableEq

/-- A guild: its id and its channel table in iteration order. -/
structure GuildM where
  id : Nat
  channels : List GChannel
deriving DecidableEq

/-- The bridge allowlist store: fully bridged guild ids and individually
bridged channel ids. -/
structure StoreLists where
  bridgedGuilds : List Nat
  bridgedChannels : List Nat
deriving DecidableEq

/-- Lines 275 and 290: the allowlist test, passed when the guild is fully
bridged or the channel id is individually listed. -/
def allowPass (g : GuildM) (st : StoreLists) (c : GChannel) : Bool :=
  st.bridgedGuilds.contains g.id || st.bridgedChannels.contains c.id

/-- Lines 290-293: a category child qualifies when it passes the
allowlist, is a text channel and the client account is a member. -/
def qualifies (g : GuildM) (st : StoreLists) (c : GChannel) : Bool :=
  allowPass g st c && c.kind == GChanKind.text && c.hasClient

/-- The children collection of a category: the guild channels whose
parentID is that category id, in table order. -/
def childrenOf (g : GuildM) (catId : Nat) : List GChannel :=
  g.channels.filter (fun c => c.parentID == some catId)

/-- One callback invocation of the walk, in order. -/
inductive WalkEvent
  | cat (id : Nat)
  | chan (id : Nat)
deriving DecidableEq

/-- Lines 288-300: the inner loop over the children of one category.  The
boolean is the doCat flag: the first qualifying child additionally emits
the category callback. -/
def catWalk (g : GuildM) (st : StoreLists) (catId : Nat) :
    Bool → List GChannel → List WalkEvent
  | _, [] => []
  | doCat, c :: rest =>
    if qualifies g st c then
      (if doCat then [WalkEvent.chan c.id]
       else [WalkEvent.cat catId, WalkEvent.chan c.id]) ++ catWalk g st catId true rest
    else catWalk g st catId doCat rest

/-- Lines 273-281: the first loop emits the channel callback for every
allowlist-passing uncategorized text channel with the client as member. -/
def topLevelEvents (g : GuildM) (st : StoreLists) : List WalkEvent :=
  (g.channels.filter (fun c =>
      allowPass g st c && c.parentID == none && c.kind == GChanKind.text
        && c.hasClient)).map (fun c => WalkEvent.chan c.id)

/-- Lines 283-287: the categories visited by the second loop: category
channels with the client as member, in table order. -/
def categoryList (g : GuildM) : List GChannel :=
  g.channels.filter (fun c => c.kind == GChanKind.category && c.hasClient)

/-- Lines 264-303, iterateGuildStructure, as the sequence of callback
invocations it performs: the uncategorized loop followed by the
per-category children loops. -/
def iterateGuildStructure (g : GuildM) (st : StoreLists) : List WalkEvent :=
  topLevelEvents g st
    ++ (categoryList g).flatMap (fun cat => catWalk g st cat.id false (childrenOf g cat.id))

/-! Concrete environments used by witnesses and counterexamples. -/

/-- A concrete escape function that visibly changes its input. -/
def escX : String → String := fun s => "X" ++ s

/-- A concrete sending identity. -/
def uAlice : SendingUser := ⟨"alice", "", "@alice:example.org"⟩

/-- World where the _matrix webhook already exists and all sends work. -/
def wHookOk : World :=
  ⟨escX, true, Except.ok [⟨"_matrix"⟩], Except.ok ⟨"_matrix"⟩, Except.ok (), Except.ok ()⟩

/-- World of a bot account whose webhook fetch is denied by the ACL. -/
def wDeniedBot : World :=
  ⟨escX, true, Except.error "acl", Except.ok ⟨"_matrix"⟩, Except.ok (), Except.ok ()⟩

/-- World of a non-bot account whose webhook fetch is denied. -/
def wDeniedNoBot : World :=
  ⟨escX, false, Except.error "acl", Except.ok ⟨"_matrix"⟩, Except.ok (), Except.ok ()⟩

/-- A rich embed with no image and no description. -/
def embedNoImage : InEmbed := ⟨"", "", none⟩

/-- User world where every source misses and the network fetch throws. -/
def uwFetchErr : UserWorld := ⟨[], [], fun _ => Except.error "Unknown User"⟩

/-- A custom-status activity that renders non-empty (state chess). -/
def actCustom : DActivity := ⟨"CUSTOM_STATUS", "", "chess", none⟩

/-- A presence with an acting user and two renderable activities. -/
def presTwoActs : DPresence := ⟨some ⟨"u1", "bob"⟩, PStatus.online, [actCustom, actCustom]⟩

/-- A concrete guild: category 1 with qualifying child 2 and
non-qualifying child 4, and uncategorized text channel 3. -/
def gW : GuildM :=
  ⟨7, [⟨1, GChanKind.category, none, true⟩, ⟨2, GChanKind.text, some 1, true⟩,
       ⟨3, GChanKind.text, none, true⟩, ⟨4, GChanKind.text, some 1, false⟩]⟩

/-- Allowlist fully bridging guild 7. -/
def stW : StoreLists := ⟨[7], []⟩

/-! Theorems. -/

/-- Mapping over an Except yields an error exactly when the input is that
error. -/
theorem exceptMap_error_iff {ε α β : Type} (x : Except ε α) (f : α → β) (e : ε) :
    x.map f = Except.error e ↔ x = Except.error e := by
  cases x <;> simp [Except.map]

/-- Mapping over an ok Except yields ok. -/
theorem exceptMap_ok {ε α β : Type} (x : Except ε α) (f : α → β) (a : α)
    (h : x = Except.ok a) : x.map f = Except.ok (f a) := by
  subst h; rfl

/-- The result of sendToDiscord is always the mapped outcome of exactly
one of the two send oracles. -/
theorem sendToDiscord_shape (w : World) (kind : ChanKind) (msg : Payload)
    (asUser : Option SendingUser) (reply : Option ReplyEmbed) :
    (∃ s : Sent, (sendToDiscord w kind msg asUser reply).fst
        = w.hookSendResult.map (fun _ => s))
    ∨ (∃ s : Sent, (sendToDiscord w kind msg asUser reply).fst
        = w.chanSendResult.map (fun _ => s)) := by
  cases asUser with
  | none => exact Or.inr ⟨_, rfl⟩
  | some u =>
    cases kind with
    | text =>
      rcases hrh : resolveHook w with ⟨ho, warns⟩
      cases ho with
      | some h =>
        refine Or.inl ⟨Sent.hook (mkHookMessage u msg reply), ?_⟩
        simp [sendToDiscord, hrh]
      | none =>
        by_cases hb : w.clientUserBot
        · refine Or.inr ⟨Sent.embed (mkBotEmbed w u msg reply), ?_⟩
          simp [sendToDiscord, hrh, hb]
        · refine Or.inr ⟨Sent.plain (mkPlainMsg w u msg reply), ?_⟩
          simp [sendToDiscord, hrh, hb]
    | dm =>
      by_cases hb : w.clientUserBot
      · refine Or.inr ⟨Sent.embed (mkBotEmbed w u msg reply), ?_⟩
        simp [sendToDiscord, hb]
      · refine Or.inr ⟨Sent.plain (mkPlainMsg w u msg reply), ?_⟩
        simp [sendToDiscord, hb]
    | groupDm =>
      by_cases hb : w.clientUserBot
      · refine Or.inr ⟨Sent.embed (mkBotEmbed w u msg reply), ?_⟩
        simp [sendToDiscord, hb]
      · refine Or.inr ⟨Sent.plain (mkPlainMsg w u msg reply), ?_⟩
        simp [sendToDiscord, hb]

/-- Claim C1: sendToDiscord surfaces an error to the caller only when the
send operation of the one mechanism that is actually attempted (webhook
send or channel send) throws; when every send succeeds the call succeeds
no matter which mechanisms were unavailable (missing webhook, denied
webhook creation, non-bot account, non-webhook channel), and on the
guaranteed last-resort plain-text path (sending identity present, no
webhook resolved, non-bot account) a failure is possible only when the
final channel send itself throws. -/
theorem C1_delivery_error_policy (w : World) (kind : ChanKind) (msg : Payload)
    (asUser : Option SendingUser) (reply : Option ReplyEmbed) :
    (w.hookSendResult = Except.ok () → w.chanSendResult = Except.ok () →
      ∃ s : Sent, (sendToDiscord w kind msg asUser reply).fst = Except.ok s) ∧
    (∀ e, (sendToDiscord w kind msg asUser reply).fst = Except.error e →
      w.hookSendResult = Except.error e ∨ w.chanSendResult = Except.error e) ∧
    (∀ u, asUser = some u →
      (kind = ChanKind.text → (resolveHook w).fst = none) →
      w.clientUserBot = false →
      ∀ e, (sendToDiscord w kind msg asUser reply).fst = Except.error e →
        w.chanSendResult = Except.error e) := by
  refine ⟨?_, ?_, ?_⟩
  · intro hh hc
    rcases sendToDiscord_shape w kind msg asUser reply with ⟨s, hs⟩ | ⟨s, hs⟩
    · exact ⟨s, by rw [hs, hh]; rfl⟩
    · exact ⟨s, by rw [hs, hc]; rfl⟩
  · intro e he
    rcases sendToDiscord_shape w kind msg asUser reply with ⟨s, hs⟩ | ⟨s, hs⟩
    · rw [hs] at he; exact Or.inl ((exceptMap_error_iff _ _ _).mp he)
    · rw [hs] at he; exact Or.inr ((exceptMap_error_iff _ _ _).mp he)
  · intro u hu hkr hb e he
    subst hu
    cases kind with
    | text =>
      have hnone := hkr rfl
      rcases hrh : resolveHook w with ⟨ho, warns⟩
      rw [hrh] at hnone
      simp at hnone
      subst hnone
      rw [show (sendToDiscord w ChanKind.text msg (some u) reply).fst
          = w.chanSendResult.map (fun _ => Sent.plain (mkPlainMsg w u msg reply))
        from by simp [sendToDiscord, hrh, hb]] at he
      exact (exceptMap_error_iff _ _ _).mp he
    | dm =>
      rw [show (sendToDiscord w ChanKind.dm msg (some u) reply).fst
          = w.chanSendResult.map (fun _ => Sent.plain (mkPlainMsg w u msg reply))
        from by simp [sendToDiscord, hb]] at he
      exact (exceptMap_error_iff _ _ _).mp he
    | groupDm =>
      rw [show (sendToDiscord w ChanKind.groupDm msg (some u) reply).fst
          = w.chanSendResult.map (fun _ => Sent.plain (mkPlainMsg w u msg reply))
        from by simp [sendToDiscord, hb]] at he
      exact (exceptMap_error_iff _ _ _).mp he

/-- Witness for C1 at a concrete input. -/
theorem C1_delivery_error_policy_witness :
    ∃ s : Sent, (sendToDiscord wHookOk ChanKind.text (Payload.text "hi")
      (some uAlice) none).fst = Except.ok s :=
  (C1_delivery_error_policy wHookOk ChanKind.text (Payload.text "hi")
    (some uAlice) none).1 rfl rfl

/-- One step of the activity scan starting from the empty accumulator: the
first activity is always processed; the second iteration aborts the whole
update when the first rendering was non-empty. -/
theorem scan_skip_empty (a b : DActivity) (rest : List DActivity) :
    scanActivities "" (a :: b :: rest)
      = if renderActivity a = "" then scanActivities "" (b :: rest) else none := by
  by_cases h : renderActivity a = ""
  · simp [scanActivities, h]
  · simp [scanActivities, h]

/-- When every activity before the last renders empty, the scan completes
and the final statusMsg is the rendering of the last activity (empty for
an empty list). -/
theorem scan_complete : ∀ (acts : List DActivity),
    (∀ a ∈ acts.dropLast, renderActivity a = "") →
    scanActivities "" acts = some ((acts.getLast?.map renderActivity).getD "")
  | [], _ => rfl
  | [a], _ => by simp [scanActivities]
  | a :: b :: rest, h => by
    rw [scan_skip_empty, if_pos (h a (by simp [List.dropLast]))]
    rw [scan_complete (b :: rest) (fun x hx => h x (by simp [List.dropLast, hx]))]
    simp

/-- When some activity before the last renders non-empty, the scan aborts
the whole update. -/
theorem scan_abort : ∀ (acts : List DActivity),
    (∃ a ∈ acts.dropLast, renderActivity a ≠ "") →
    scanActivities "" acts = none
  | [], h => by simp [List.dropLast] at h
  | [a], h => by simp [List.dropLast] at h
  | a :: b :: rest, h => by
    rw [scan_skip_empty]
    by_cases ha : renderActivity a = ""
    · rw [if_pos ha]
      apply scan_abort (b :: rest)
      rcases h with ⟨x, hx, hne⟩
      have hx2 : x = a ∨ x ∈ (b :: rest).dropLast := by
        simpa [List.dropLast] using hx
      rcases hx2 with h1 | h2
      · exact absurd (h1 ▸ ha) hne
      · exact ⟨x, h2, hne⟩
    · rw [if_neg ha]

/-- Claim C2 counterexample: a presence with a non-null acting user and
two activities whose first renders a non-empty status line makes
updatePresence return from inside the loop, so no (home presence, status
line) pair is produced at all, refuting the claim that translate always
yields the pair regardless of how many activities the list contains. -/
theorem C2_counterexample :
    updatePresence true (some presTwoActs) = none
      ∧ presTwoActs.user.isSome = true
      ∧ presTwoActs.activities.length = 2 := by
  decide

/-- Claim C2 (amended): with a non-null acting user, the presence
translation yields the (home presence, status line) pair exactly when
every activity before the last one renders an empty status line (so in
particular whenever the activity list has at most one element); the
status line is then the rendering of the last activity.  If any earlier
activity renders non-empty, the early return inside the scan aborts the
whole update and no pair is produced. -/
theorem C2_translate_first_nonempty (u : DUser) (st : PStatus)
    (acts : List DActivity) :
    ((∀ a ∈ acts.dropLast, renderActivity a = "") →
      updatePresence true (some ⟨some u, st, acts⟩)
        = some (statusMap st,
            if ((acts.getLast?.map renderActivity).getD "") != ""
            then some ((acts.getLast?.map renderActivity).getD "") else none)) ∧
    ((∃ a ∈ acts.dropLast, renderActivity a ≠ "") →
      updatePresence true (some ⟨some u, st, acts⟩) = none) := by
  constructor
  · intro h
    have hs := scan_complete acts h
    simp [updatePresence, hs]
  · intro h
    have hs := scan_abort acts h
    simp [updatePresence, hs]

/-- Witness for C2 (amended) at a concrete single-activity presence. -/
theorem C2_translate_first_nonempty_witness :
    updatePresence true (some ⟨some ⟨"u1", "bob"⟩, PStatus.online, [actCustom]⟩)
      = some (MatrixPresence.online, some "chess") := by
  have h := (C2_translate_first_nonempty ⟨"u1", "bob"⟩ PStatus.online [actCustom]).1
    (by decide)
  rw [h]
  decide

/-- Claim C10: whenever updatePresence performs its setter effects at all,
the home presence set is the mapped status, and the status setter is
invoked only with a non-empty status line; when the scan completes with an
empty status line the presence is still set and the status is left
untouched. -/
theorem C10_status_setter_guard (u : DUser) (st : PStatus)
    (acts : List DActivity) :
    (∀ mp so, updatePresence true (some ⟨some u, st, acts⟩) = some (mp, so) →
      mp = statusMap st ∧ ∀ s, so = some s → s ≠ "") ∧
    (scanActivities "" acts = some "" →
      updatePresence true (some ⟨some u, st, acts⟩) = some (statusMap st, none)) := by
  constructor
  · intro mp so h
    rcases hs : scanActivities "" acts with _ | stv
    · simp [updatePresence, hs] at h
    · simp [updatePresence, hs] at h
      by_cases hstv : stv = ""
      · subst hstv
        simp at h
        exact ⟨h.1.symm, fun s hso => by rw [← h.2] at hso; cases hso⟩
      · simp [hstv] at h
        refine ⟨h.1.symm, fun s hso => ?_⟩
        rw [← h.2] at hso
        injection hso with hs2
        rw [← hs2]
        exact hstv
  · intro h
    simp [updatePresence, h]

/-- Witness for C10 at a concrete presence whose scan completes empty. -/
theorem C10_status_setter_guard_witness :
    updatePresence true (some ⟨some ⟨"u1", "bob"⟩, PStatus.idle, []⟩)
      = some (MatrixPresence.unavailable, none) := by
  have h := (C10_status_setter_guard ⟨"u1", "bob"⟩ PStatus.idle []).2 (by decide)
  rw [h]
  decide

/-- Claim C4 counterexample: when the guild scan and the friends list miss
and the direct network fetch throws, getUserById propagates the thrown
error instead of returning null, refuting the claim that a fetch failure
is surfaced to the caller as a resolution miss. -/
theorem C4_counterexample :
    getUserById uwFetchErr "42" = Except.error "Unknown User"
      ∧ getUserById uwFetchErr "42" ≠ Except.ok none
      ∧ findInGuilds uwFetchErr.guilds "42" = none
      ∧ findFriend uwFetchErr.friends "42" = none := by
  decide

/-- Claim C4 (amended): getUserById returns null exactly when the guild
membership scan and the friends list miss and the direct fetch completes
without producing a user; when the fetch throws instead, the error
propagates to the caller (it is not converted into a null miss). -/
theorem C4_resolution_miss (w : UserWorld) (id : String) :
    (getUserById w id = Except.ok none ↔
      (findInGuilds w.guilds id = none ∧ findFriend w.friends id = none
        ∧ w.fetchUser id = Except.ok none)) ∧
    (∀ e, getUserById w id = Except.error e →
      findInGuilds w.guilds id = none ∧ findFriend w.friends id = none
        ∧ w.fetchUser id = Except.error e) := by
  rcases h1 : findInGuilds w.guilds id with _ | u1
  · rcases h2 : findFriend w.friends id with _ | u2
    · rcases h3 : w.fetchUser id with e0 | ou
      · simp [getUserById, h1, h2, h3]
      · cases ou <;> simp [getUserById, h1, h2, h3]
    · simp [getUserById, h1, h2]
  · simp [getUserById, h1]

/-- Witness for C4 (amended) at the concrete fetch-error world. -/
theorem C4_resolution_miss_witness :
    findInGuilds uwFetchErr.guilds "42" = none
      ∧ findFriend uwFetchErr.friends "42" = none
      ∧ uwFetchErr.fetchUser "42" = Except.error "Unknown User" :=
  (C4_resolution_miss uwFetchErr "42").2 "Unknown User" (by decide)

/-- Claim C7 counterexample: for the DM-prefixed id dm-42, when user
resolution throws (all sources miss and the network fetch rejects),
getDiscordChan propagates the error instead of returning null, refuting
the claim that every non-success of user resolution yields null. -/
theorem C7_counterexample :
    getDiscordChan uwFetchErr [] [] "dm-42" = Except.error "Unknown User"
      ∧ getDiscordChan uwFetchErr [] [] "dm-42" ≠ Except.ok none := by
  decide

/-- Claim C7 (amended): for every DM-prefixed id, getDiscordChan strips
the prefix and resolves the remaining token via getUserById; it returns a
direct-message channel if and only if that resolution succeeds with a
user, it returns null when the resolution completes without a user, and a
resolution error propagates to the caller instead of becoming null. -/
theorem C7_dm_resolution (uw : UserWorld) (cache : List CachedChan)
    (guildChans : List (List CachedChan)) (id : String)
    (hdm : hasDmPrefix id = true) :
    (∀ u, getUserById uw (stripDm id) = Except.ok (some u) →
      getDiscordChan uw cache guildChans id = Except.ok (some (ResChan.dm u.id))) ∧
    (getUserById uw (stripDm id) = Except.ok none →
      getDiscordChan uw cache guildChans id = Except.ok none) ∧
    (∀ e, getUserById uw (stripDm id) = Except.error e →
      getDiscordChan uw cache guildChans id = Except.error e) ∧
    (∀ r, getDiscordChan uw cache guildChans id = Except.ok (some r) →
      ∃ u, getUserById uw (stripDm id) = Except.ok (some u) ∧ r = ResChan.dm u.id) := by
  refine ⟨?_, ?_, ?_, ?_⟩
  · intro u hu
    simp [getDiscordChan, hdm, hu]
  · intro hu
    simp [getDiscordChan, hdm, hu]
  · intro e he
    simp [getDiscordChan, hdm, he]
  · intro r hr
    rcases hu : getUserById uw (stripDm id) with e | ou
    · simp [getDiscordChan, hdm, hu] at hr
    · cases ou with
      | none => simp [getDiscordChan, hdm, hu] at hr
      | some u =>
        simp [getDiscordChan, hdm, hu] at hr
        exact ⟨u, rfl, hr.symm⟩

/-- Witness for C7 (amended): the dm- id resolving to user 42 opens the
DM channel with that user. -/
theorem C7_dm_resolution_witness :
    getDiscordChan ⟨[[⟨⟨"42", "bob"⟩⟩]], [], fun _ => Except.error "x"⟩ [] [] "dm-42"
      = Except.ok (some (ResChan.dm "42")) :=
  (C7_dm_resolution ⟨[[⟨⟨"42", "bob"⟩⟩]], [], fun _ => Except.error "x"⟩ [] [] "dm-42"
    (by decide)).1 ⟨"42", "bob"⟩ (by decide)

/-- Whenever webhook resolution yields no hook, exactly one warning was
logged (one for a denied fetch, one for a denied creation). -/
theorem resolveHook_none_warns (w : World)
    (h : (resolveHook w).fst = none) : (resolveHook w).snd.length = 1 := by
  rcases hf : w.fetchWebhooksResult with e | hooks
  · simp [resolveHook, hf]
  · rcases hfind : hooks.find? (fun h => h.name == "_matrix") with _ | hk
    · rcases hc : w.createWebhookResult with e2 | h2
      · simp [resolveHook, hf, hfind, hc]
      · simp [resolveHook, hf, hfind, hc] at h
    · simp [resolveHook, hf, hfind] at h

/-- Claim C5: with a sending identity, a bot account and a webhook-capable
channel, a webhook denial (fetch or creation error) produces exactly one
warning, is never surfaced to the caller (the only possible error is the
embed channel send itself), and the message goes out via the embed
mechanism whose author name is the sending identity display name. -/
theorem C5_webhook_denied_embed (w : World) (u : SendingUser) (msg : Payload)
    (reply : Option ReplyEmbed)
    (hbot : w.clientUserBot = true)
    (hdenied : (resolveHook w).fst = none) :
    (sendToDiscord w ChanKind.text msg (some u) reply).snd.length = 1 ∧
    (sendToDiscord w ChanKind.text msg (some u) reply).fst
      = w.chanSendResult.map (fun _ => Sent.embed (mkBotEmbed w u msg reply)) ∧
    (mkBotEmbed w u msg reply).authorName = some u.displayname := by
  have hw := resolveHook_none_warns w hdenied
  rcases hrh : resolveHook w with ⟨ho, warns⟩
  rw [hrh] at hdenied hw
  simp only at hdenied
  subst hdenied
  refine ⟨?_, ?_, rfl⟩
  · simpa [sendToDiscord, hrh, hbot] using hw
  · simp [sendToDiscord, hrh, hbot]

/-- Witness for C5 at the concrete denied-fetch bot world. -/
theorem C5_webhook_denied_embed_witness :
    (sendToDiscord wDeniedBot ChanKind.text (Payload.text "hi")
        (some uAlice) none).snd.length = 1 ∧
    (sendToDiscord wDeniedBot ChanKind.text (Payload.text "hi")
        (some uAlice) none).fst
      = wDeniedBot.chanSendResult.map
          (fun _ => Sent.embed (mkBotEmbed wDeniedBot uAlice (Payload.text "hi") none)) ∧
    (mkBotEmbed wDeniedBot uAlice (Payload.text "hi") none).authorName = some "alice" := by
  have h := C5_webhook_denied_embed wDeniedBot uAlice (Payload.text "hi") none rfl (by decide)
  exact ⟨h.1, h.2.1, h.2.2⟩

/-- Claim C6: with a sending identity, a non-bot account and no webhook
available (non-webhook channel kind, or webhook resolution yielding
none), a plain-text payload is delivered as the single bold-prefixed
message, with the block-quoted reply description appended when a reply
with truthy description is present. -/
theorem C6_plaintext_relay (w : World) (u : SendingUser) (s : String)
    (reply : Option ReplyEmbed) (kind : ChanKind)
    (hbot : w.clientUserBot = false)
    (hnohook : kind = ChanKind.text → (resolveHook w).fst = none) :
    (sendToDiscord w kind (Payload.text s) (some u) reply).fst
      = w.chanSendResult.map (fun _ =>
          Sent.plain ("**" ++ w.esc u.displayname ++ "**: " ++ s ++ replySuffix reply)) := by
  cases kind with
  | text =>
    have h := hnohook rfl
    rcases hrh : resolveHook w with ⟨ho, warns⟩
    rw [hrh] at h
    simp only at h
    subst h
    simp [sendToDiscord, hrh, hbot, mkPlainMsg]
  | dm => simp [sendToDiscord, hbot, mkPlainMsg]
  | groupDm => simp [sendToDiscord, hbot, mkPlainMsg]

/-- Witness for C6 at a concrete non-bot denied world with a reply. -/
theorem C6_plaintext_relay_witness :
    (sendToDiscord wDeniedNoBot ChanKind.text (Payload.text "hello")
        (some uAlice) (some ⟨"bob", "orig"⟩)).fst
      = Except.ok (Sent.plain "**Xalice**: hello\n>>> orig") := by
  have h := C6_plaintext_relay wDeniedNoBot uAlice "hello" (some ⟨"bob", "orig"⟩)
    ChanKind.text rfl (fun _ => by decide)
  rw [h]
  decide

/-- Claim C9 counterexample: on the prefixed plain-text path a rich-embed
payload with no image produces the empty message text, not the bold
sender-name prefix: the sent content differs from the bold prefix and the
display name never appears. -/
theorem C9_counterexample :
    (sendToDiscord wDeniedNoBot ChanKind.text (Payload.embed embedNoImage)
        (some uAlice) none).fst = Except.ok (Sent.plain "")
      ∧ ("" : String) ≠ "**" ++ wDeniedNoBot.esc "alice" ++ "**" := by
  decide

/-- Claim C9 (amended): on the prefixed plain-text path a rich-embed
payload with no image contributes no text at all: the synthesized message
is exactly the reply suffix (so the empty string without a reply), and it
is delivered without error whenever the channel send succeeds. -/
theorem C9_embed_no_image_plaintext (w : World) (u : SendingUser) (e : InEmbed)
    (reply : Option ReplyEmbed) (kind : ChanKind)
    (hbot : w.clientUserBot = false)
    (hnohook : kind = ChanKind.text → (resolveHook w).fst = none)
    (himg : e.image = none) :
    (sendToDiscord w kind (Payload.embed e) (some u) reply).fst
      = w.chanSendResult.map (fun _ => Sent.plain (replySuffix reply)) ∧
    (w.chanSendResult = Except.ok () →
      (sendToDiscord w kind (Payload.embed e) (some u) reply).fst
        = Except.ok (Sent.plain (replySuffix reply))) := by
  have hmsg : mkPlainMsg w u (Payload.embed e) reply = replySuffix reply := by
    simp [mkPlainMsg, himg, String.empty_append]
  have h1 : (sendToDiscord w kind (Payload.embed e) (some u) reply).fst
      = w.chanSendResult.map (fun _ => Sent.plain (replySuffix reply)) := by
    cases kind with
    | text =>
      have h := hnohook rfl
      rcases hrh : resolveHook w with ⟨ho, warns⟩
      rw [hrh] at h
      simp only at h
      subst h
      simp [sendToDiscord, hrh, hbot, hmsg]
    | dm => simp [sendToDiscord, hbot, hmsg]
    | groupDm => simp [sendToDiscord, hbot, hmsg]
  exact ⟨h1, fun hok => by rw [h1, hok]; rfl⟩

/-- Witness for C9 (amended) at the concrete no-image embed. -/
theorem C9_embed_no_image_plaintext_witness :
    (sendToDiscord wDeniedNoBot ChanKind.dm (Payload.embed embedNoImage)
        (some uAlice) none).fst = Except.ok (Sent.plain (replySuffix none)) :=
  (C9_embed_no_image_plaintext wDeniedNoBot uAlice embedNoImage none ChanKind.dm
    rfl (fun h => by cases h) rfl).2 rfl

/-- The webhook message username is always the raw sending identity
display name. -/
theorem mkHookMessage_username (u : SendingUser) (msg : Payload)
    (reply : Option ReplyEmbed) : (mkHookMessage u msg reply).username = u.displayname := by
  cases msg <;> cases reply <;> rfl

/-- The webhook message attachment filename is the raw payload filename. -/
theorem mkHookMessage_files (u : SendingUser) (f : SendFile)
    (reply : Option ReplyEmbed) :
    (mkHookMessage u (Payload.file f) reply).files = [f.filename] := by
  cases reply <;> rfl

/-- A successful webhook-path send always carries exactly the constructed
webhook message. -/
theorem sendToDiscord_hook_inv (w : World) (u : SendingUser) (msg : Payload)
    (reply : Option ReplyEmbed) (hm : HookMessage) (warns : List String)
    (h : sendToDiscord w ChanKind.text msg (some u) reply
        = (Except.ok (Sent.hook hm), warns)) :
    hm = mkHookMessage u msg reply := by
  rcases hrh : resolveHook w with ⟨ho, wns⟩
  cases ho with
  | some hk =>
    rcases hs : w.hookSendResult with e | u0
    · simp [sendToDiscord, hrh, hs, Except.map] at h
    · simp [sendToDiscord, hrh, hs, Except.map] at h
      exact h.1.symm
  | none =>
    by_cases hb : w.clientUserBot
    · rcases hs : w.chanSendResult with e | u0 <;>
        simp [sendToDiscord, hrh, hb, hs, Except.map] at h
    · rcases hs : w.chanSendResult with e | u0 <;>
        simp [sendToDiscord, hrh, hb, hs, Except.map] at h

/-- Claim C3 (amended): escaping before insertion happens only on some
paths.  The prefixed plain-text relay escapes both the display name and
the filename; the embed relay escapes the filename of a non-image file
but sets its author name to the raw display name; the webhook relay
inserts the raw display name as username and the raw filename as
attachment name. -/
theorem C3_escape_discipline (w : World) (u : SendingUser) (msg : Payload)
    (reply : Option ReplyEmbed) :
    (∀ hm warns, sendToDiscord w ChanKind.text msg (some u) reply
        = (Except.ok (Sent.hook hm), warns) → hm.username = u.displayname) ∧
    ((mkBotEmbed w u msg reply).authorName = some u.displayname) ∧
    (∀ f : SendFile, f.isImage = false →
      (mkBotEmbed w u (Payload.file f) reply).description
        = some ("Uploaded a file `" ++ w.esc f.filename ++ "`: " ++ f.url)) ∧
    (∀ f : SendFile, mkPlainMsg w u (Payload.file f) reply
        = "**" ++ w.esc u.displayname ++ "** uploaded a file `" ++ w.esc f.filename
            ++ "`: " ++ f.url ++ replySuffix reply) ∧
    (∀ s : String, mkPlainMsg w u (Payload.text s) reply
        = "**" ++ w.esc u.displayname ++ "**: " ++ s ++ replySuffix reply) ∧
    (∀ f : SendFile, ∀ hm warns, sendToDiscord w ChanKind.text (Payload.file f) (some u) reply
        = (Except.ok (Sent.hook hm), warns) → hm.files = [f.filename]) := by
  refine ⟨?_, rfl, ?_, ?_, ?_, ?_⟩
  · intro hm warns h
    rw [sendToDiscord_hook_inv w u msg reply hm warns h]
    exact mkHookMessage_username u msg reply
  · intro f hf
    cases reply with
    | none => simp [mkBotEmbed, hf]
    | some r =>
      by_cases hr : (r.description != "") = true
      · simp [mkBotEmbed, hf, hr]
      · simp [mkBotEmbed, hf, hr]
  · intro f
    simp [mkPlainMsg]
  · intro s
    simp [mkPlainMsg]
  · intro f hm warns h
    rw [sendToDiscord_hook_inv w u (Payload.file f) reply hm warns h]
    exact mkHookMessage_files u f reply

/-- Witness for C3 (amended) at a concrete webhook-path send and a
concrete plain-text relay. -/
theorem C3_escape_discipline_witness :
    (⟨"alice", none, some "hi", [], []⟩ : HookMessage).username = uAlice.displayname ∧
    mkPlainMsg wHookOk uAlice (Payload.text "hi") none = "**Xalice**: hi" := by
  have h := C3_escape_discipline wHookOk uAlice (Payload.text "hi") none
  refine ⟨h.1 ⟨"alice", none, some "hi", [], []⟩ [] (by decide), ?_⟩
  rw [h.2.2.2.2.1 "hi"]
  decide

/-- Claim C3 counterexample: a relayed webhook send inserts the raw,
unescaped display name as the webhook username even though the escape
operation would have changed it, refuting the claim that every inserted
display name passes through the escape first. -/
theorem C3_counterexample :
    (sendToDiscord wHookOk ChanKind.text (Payload.text "hi")
        (some uAlice) none).fst
      = Except.ok (Sent.hook ⟨"alice", none, some "hi", [], []⟩)
      ∧ wHookOk.esc "alice" ≠ "alice" := by
  decide

/-- The chan constructor of walk events is injective. -/
theorem walkEvent_chan_injective : Function.Injective WalkEvent.chan :=
  fun _ _ h => WalkEvent.chan.inj h

/-- A category event inside one children loop names that category and
requires a qualifying child. -/
theorem catWalk_cat_mem (g : GuildM) (st : StoreLists) (catId j : Nat) :
    ∀ (b : Bool) (l : List GChannel), WalkEvent.cat j ∈ catWalk g st catId b l →
      j = catId ∧ ∃ c ∈ l, qualifies g st c = true := by
  intro b l
  induction l generalizing b with
  | nil => intro h; simp [catWalk] at h
  | cons c rest ih =>
    intro h
    by_cases hq : qualifies g st c = true
    · rw [show catWalk g st catId b (c :: rest)
          = (if b then [WalkEvent.chan c.id]
             else [WalkEvent.cat catId, WalkEvent.chan c.id])
            ++ catWalk g st catId true rest from by
        cases b <;> simp [catWalk, hq]] at h
      rcases List.mem_append.mp h with h1 | h2
      · cases b with
        | true => simp at h1
        | false =>
          simp at h1
          exact ⟨h1, c, List.mem_cons_self c rest, hq⟩
      · obtain ⟨hj, c', hc', hq'⟩ := ih true h2
        exact ⟨hj, c', List.mem_cons_of_mem _ hc', hq'⟩
    · rw [show catWalk g st catId b (c :: rest) = catWalk g st catId b rest from by
        simp [catWalk, hq]] at h
      obtain ⟨hj, c', hc', hq'⟩ := ih b h
      exact ⟨hj, c', List.mem_cons_of_mem _ hc', hq'⟩

/-- Once the doCat flag is set the children loop emits no category
event. -/
theorem catWalk_true_no_cat (g : GuildM) (st : StoreLists) (catId j : Nat) :
    ∀ (l : List GChannel), WalkEvent.cat j ∉ catWalk g st catId true l := by
  intro l
  induction l with
  | nil => simp [catWalk]
  | cons c rest ih =>
    by_cases hq : qualifies g st c = true
    · simp [catWalk, hq]
      exact ih
    · simpa [catWalk, hq] using ih

/-- Skipping a block of non-qualifying children leaves the loop output
unchanged. -/
theorem catWalk_skip (g : GuildM) (st : StoreLists) (catId : Nat) :
    ∀ (b : Bool) (pre l : List GChannel), (∀ c ∈ pre, qualifies g st c = false) →
      catWalk g st catId b (pre ++ l) = catWalk g st catId b l := by
  intro b pre
  induction pre generalizing b with
  | nil => intro l _; rfl
  | cons c rest ih =>
    intro l hpre
    have hc : qualifies g st c = false := hpre c (List.mem_cons_self c rest)
    rw [List.cons_append,
      show catWalk g st catId b (c :: (rest ++ l)) = catWalk g st catId b (rest ++ l) from by
        simp [catWalk, hc]]
    exact ih b l (fun x hx => hpre x (List.mem_cons_of_mem _ hx))

/-- The first qualifying child emits the category event immediately
followed by its own channel event. -/
theorem catWalk_first (g : GuildM) (st : StoreLists) (catId : Nat)
    (c : GChannel) (post : List GChannel) (hq : qualifies g st c = true) :
    catWalk g st catId false (c :: post)
      = WalkEvent.cat catId :: WalkEvent.chan c.id :: catWalk g st catId true post := by
  simp [catWalk, hq]

/-- A channel event inside one children loop comes from a qualifying
child with that id. -/
theorem catWalk_chan_mem (g : GuildM) (st : StoreLists) (catId i : Nat) :
    ∀ (b : Bool) (l : List GChannel), WalkEvent.chan i ∈ catWalk g st catId b l →
      ∃ c ∈ l, c.id = i ∧ qualifies g st c = true := by
  intro b l
  induction l generalizing b with
  | nil => intro h; simp [catWalk] at h
  | cons c rest ih =>
    intro h
    by_cases hq : qualifies g st c = true
    · rw [show catWalk g st catId b (c :: rest)
          = (if b then [WalkEvent.chan c.id]
             else [WalkEvent.cat catId, WalkEvent.chan c.id])
            ++ catWalk g st catId true rest from by
        cases b <;> simp [catWalk, hq]] at h
      rcases List.mem_append.mp h with h1 | h2
      · cases b with
        | true =>
          simp at h1
          exact ⟨c, List.mem_cons_self c rest, h1.symm, hq⟩
        | false =>
          simp at h1
          exact ⟨c, List.mem_cons_self c rest, h1.symm, hq⟩
      · obtain ⟨c', hc', hi', hq'⟩ := ih true h2
        exact ⟨c', List.mem_cons_of_mem _ hc', hi', hq'⟩
    · rw [show catWalk g st catId b (c :: rest) = catWalk g st catId b rest from by
        simp [catWalk, hq]] at h
      obtain ⟨c', hc', hi', hq'⟩ := ih b h
      exact ⟨c', List.mem_cons_of_mem _ hc', hi', hq'⟩

/-- One children loop emits a given channel id at most as often as it
occurs among the children. -/
theorem catWalk_count_le (g : GuildM) (st : StoreLists) (catId i : Nat) :
    ∀ (b : Bool) (l : List GChannel),
      (catWalk g st catId b l).count (WalkEvent.chan i)
        ≤ (l.map GChannel.id).count i := by
  intro b l
  induction l generalizing b with
  | nil => simp [catWalk]
  | cons c rest ih =>
    by_cases hq : qualifies g st c = true
    · rw [show catWalk g st catId b (c :: rest)
          = (if b then [WalkEvent.chan c.id]
             else [WalkEvent.cat catId, WalkEvent.chan c.id])
            ++ catWalk g st catId true rest from by
        cases b <;> simp [catWalk, hq]]
      rw [List.count_append, List.map_cons, List.count_cons]
      have hpre : (if b then [WalkEvent.chan c.id]
          else [WalkEvent.cat catId, WalkEvent.chan c.id]).count (WalkEvent.chan i)
          = if i == c.id then 1 else 0 := by
        cases b <;> by_cases hic : i = c.id <;> simp [List.count_cons, hic]
      rw [hpre]
      have hih := ih true
      by_cases hic : i = c.id
      · subst hic
        simp only [beq_self_eq_true, if_true]
        omega
      · simp only [beq_iff_eq, hic, if_false]
        omega
    · rw [show catWalk g st catId b (c :: rest) = catWalk g st catId b rest from by
        simp [catWalk, hq]]
      rw [List.map_cons, List.count_cons]
      have hih := ih b
      omega

/-- The uncategorized loop emits no category events. -/
theorem topLevel_no_cat (g : GuildM) (st : StoreLists) (j : Nat) :
    WalkEvent.cat j ∉ topLevelEvents g st := by
  simp [topLevelEvents]

/-- A channel event of the uncategorized loop comes from an uncategorized
guild channel with that id. -/
theorem topLevel_chan_mem (g : GuildM) (st : StoreLists) (i : Nat)
    (h : WalkEvent.chan i ∈ topLevelEvents g st) :
    ∃ c ∈ g.channels, c.id = i ∧ c.parentID = none := by
  rw [topLevelEvents, List.mem_map] at h
  obtain ⟨c, hc, hci⟩ := h
  rw [List.mem_filter] at hc
  refine ⟨c, hc.1, WalkEvent.chan.inj hci, ?_⟩
  have hb := hc.2
  simp only [Bool.and_eq_true, beq_iff_eq] at hb
  exact hb.1.1.2

/-- With pairwise distinct channel ids, the uncategorized loop emits every
channel id at most once. -/
theorem topLevel_count_le_one (g : GuildM) (st : StoreLists)
    (hnd : (g.channels.map GChannel.id).Nodup) (i : Nat) :
    (topLevelEvents g st).count (WalkEvent.chan i) ≤ 1 := by
  have h1 : topLevelEvents g st
      = ((g.channels.filter (fun c =>
          allowPass g st c && c.parentID == none && c.kind == GChanKind.text
            && c.hasClient)).map GChannel.id).map WalkEvent.chan := by
    rw [topLevelEvents, List.map_map]
    rfl
  rw [h1, List.count_map_of_injective _ WalkEvent.chan walkEvent_chan_injective i]
  have hsub : List.Sublist
      ((g.channels.filter (fun c =>
        allowPass g st c && c.parentID == none && c.kind == GChanKind.text
          && c.hasClient)).map GChannel.id)
      (g.channels.map GChannel.id) :=
    (List.filter_sublist _).map _
  exact le_trans (hsub.count_le _) (List.nodup_iff_count_le_one.mp hnd i)

/-- Counting a channel event across the per-category loops, bounded by
the number of categories carrying a distinguished id p. -/
theorem flatMap_chanCount_le (g : GuildM) (st : StoreLists) (i p : Nat) :
    ∀ (cats : List GChannel),
      (∀ cat ∈ cats, cat.id ≠ p →
        (catWalk g st cat.id false (childrenOf g cat.id)).count (WalkEvent.chan i) = 0) →
      (∀ cat ∈ cats,
        (catWalk g st cat.id false (childrenOf g cat.id)).count (WalkEvent.chan i) ≤ 1) →
      ((cats.flatMap fun cat =>
          catWalk g st cat.id false (childrenOf g cat.id)).count (WalkEvent.chan i))
        ≤ (cats.map GChannel.id).count p := by
  intro cats
  induction cats with
  | nil => simp
  | cons cat rest ih =>
    intro h1 h2
    rw [List.flatMap_cons, List.count_append, List.map_cons, List.count_cons]
    have hrest := ih (fun x hx => h1 x (List.mem_cons_of_mem _ hx))
      (fun x hx => h2 x (List.mem_cons_of_mem _ hx))
    by_cases hp : cat.id = p
    · have hc := h2 cat (List.mem_cons_self cat rest)
      subst hp
      simp only [beq_self_eq_true, if_true]
      omega
    · have hc0 := h1 cat (List.mem_cons_self cat rest) hp
      have hp2 : ¬ p = cat.id := fun h => hp h.symm
      simp only [beq_iff_eq, hp2, if_false]
      omega

/-- Claim C8: with pairwise distinct channel ids, the guild walk (i) never
emits the category callback for a category none of whose children
qualifies, (ii) for a category whose first qualifying child is c0 emits
the category callback exactly once, immediately before the channel
callback of c0, and (iii) never emits the channel callback twice for the
same channel id. -/
theorem C8_walk_category_laziness (g : GuildM) (st : StoreLists)
    (hnd : (g.channels.map GChannel.id).Nodup) :
    (∀ catId : Nat, (∀ c ∈ childrenOf g catId, qualifies g st c = false) →
      WalkEvent.cat catId ∉ iterateGuildStructure g st) ∧
    (∀ cat ∈ g.channels, cat.kind = GChanKind.category → cat.hasClient = true →
      ∀ (pre : List GChannel) (c0 : GChannel) (post : List GChannel),
        childrenOf g cat.id = pre ++ c0 :: post →
        (∀ c ∈ pre, qualifies g st c = false) → qualifies g st c0 = true →
        ∃ e1 e2, iterateGuildStructure g st
            = e1 ++ WalkEvent.cat cat.id :: WalkEvent.chan c0.id :: e2
          ∧ WalkEvent.cat cat.id ∉ e1 ∧ WalkEvent.cat cat.id ∉ e2) ∧
    (∀ i : Nat, (iterateGuildStructure g st).count (WalkEvent.chan i) ≤ 1) := by
  have hinj := List.inj_on_of_nodup_map hnd
  have hchild_mem : ∀ (catId : Nat) (x : GChannel), x ∈ childrenOf g catId →
      x ∈ g.channels ∧ x.parentID = some catId := by
    intro catId x hx
    rw [childrenOf, List.mem_filter] at hx
    exact ⟨hx.1, by simpa using hx.2⟩
  refine ⟨?_, ?_, ?_⟩
  · intro catId hnoq h
    rw [iterateGuildStructure] at h
    rcases List.mem_append.mp h with h1 | h2
    · exact topLevel_no_cat g st catId h1
    · rw [List.mem_flatMap] at h2
      obtain ⟨cat', _hcat', hev⟩ := h2
      obtain ⟨hj, c, hc, hq⟩ := catWalk_cat_mem g st cat'.id catId false _ hev
      subst hj
      have := hnoq c hc
      simp [this] at hq
  · intro cat hcat hkind hmem pre c0 post hsplit hpre hq0
    have hcatL : cat ∈ categoryList g := by
      rw [categoryList, List.mem_filter]
      exact ⟨hcat, by simp [hkind, hmem]⟩
    have hchNodup : g.channels.Nodup := List.Nodup.of_map _ hnd
    have hcatsNodup : (categoryList g).Nodup :=
      List.Nodup.sublist (List.filter_sublist _) hchNodup
    obtain ⟨s, t, hst⟩ := List.append_of_mem hcatL
    have hfcat : catWalk g st cat.id false (childrenOf g cat.id)
        = WalkEvent.cat cat.id :: WalkEvent.chan c0.id
            :: catWalk g st cat.id true post := by
      rw [hsplit, catWalk_skip g st cat.id false pre (c0 :: post) hpre,
        catWalk_first g st cat.id c0 post hq0]
    have hnd2 : (s ++ cat :: t).Nodup := hst ▸ hcatsNodup
    have hparts := List.nodup_append.mp hnd2
    have hcat_not_s : cat ∉ s := fun hmem2 =>
      hparts.2.2 hmem2 (List.mem_cons_self _ _)
    have hcat_not_t : cat ∉ t := (List.nodup_cons.mp hparts.2.1).1
    have hmem_s : ∀ x ∈ s, x ∈ categoryList g := by
      intro x hx
      rw [hst]
      exact List.mem_append_left _ hx
    have hmem_t : ∀ x ∈ t, x ∈ categoryList g := by
      intro x hx
      rw [hst]
      exact List.mem_append_right _ (List.mem_cons_of_mem _ hx)
    have hnotin : ∀ (L : List GChannel), (∀ x ∈ L, x ∈ categoryList g) → cat ∉ L →
        WalkEvent.cat cat.id ∉ L.flatMap (fun c2 =>
          catWalk g st c2.id false (childrenOf g c2.id)) := by
      intro L hsubL hnotmem hev
      rw [List.mem_flatMap] at hev
      obtain ⟨cat', hcat'L, hev2⟩ := hev
      obtain ⟨hj, c, _hc, _hq⟩ := catWalk_cat_mem g st cat'.id cat.id false _ hev2
      have hcat'ch : cat' ∈ g.channels := (List.mem_filter.mp (hsubL cat' hcat'L)).1
      have heq : cat = cat' := hinj hcat hcat'ch hj
      exact hnotmem (by rw [heq]; exact hcat'L)
    refine ⟨topLevelEvents g st ++ s.flatMap (fun c2 =>
        catWalk g st c2.id false (childrenOf g c2.id)),
      catWalk g st cat.id true post ++ t.flatMap (fun c2 =>
        catWalk g st c2.id false (childrenOf g c2.id)), ?_, ?_, ?_⟩
    · rw [iterateGuildStructure, hst, List.flatMap_append, List.flatMap_cons, hfcat]
      simp [List.append_assoc]
    · intro hM
      rcases List.mem_append.mp hM with h1 | h2
      · exact topLevel_no_cat g st cat.id h1
      · exact hnotin s hmem_s hcat_not_s h2
    · intro hM
      rcases List.mem_append.mp hM with h1 | h2
      · exact catWalk_true_no_cat g st cat.id cat.id post h1
      · exact hnotin t hmem_t hcat_not_t h2
  · intro i
    rw [iterateGuildStructure, List.count_append]
    by_cases hex : ∃ c ∈ g.channels, c.id = i
    · obtain ⟨c, hc, hci⟩ := hex
      have huniq : ∀ c' ∈ g.channels, c'.id = i → c' = c := fun c' hc' h' =>
        hinj hc' hc (by rw [h', hci])
      have hcat_count_zero : ∀ cat' : GChannel, c.parentID ≠ some cat'.id →
          (catWalk g st cat'.id false (childrenOf g cat'.id)).count
            (WalkEvent.chan i) = 0 := by
        intro cat' hne
        rw [List.count_eq_zero]
        intro hev
        obtain ⟨x, hx, hxi, _hxq⟩ := catWalk_chan_mem g st cat'.id i false _ hev
        obtain ⟨hxg, hxp⟩ := hchild_mem cat'.id x hx
        rw [huniq x hxg hxi] at hxp
        exact hne hxp
      have hcat_count_le_one : ∀ cat' : GChannel,
          (catWalk g st cat'.id false (childrenOf g cat'.id)).count
            (WalkEvent.chan i) ≤ 1 := by
        intro cat'
        refine le_trans (catWalk_count_le g st cat'.id i false _) ?_
        have hsub : List.Sublist ((childrenOf g cat'.id).map GChannel.id)
            (g.channels.map GChannel.id) := (List.filter_sublist _).map _
        exact le_trans (hsub.count_le _) (List.nodup_iff_count_le_one.mp hnd i)
      cases hpid : c.parentID with
      | none =>
        have h2 : ((categoryList g).flatMap (fun cat' =>
            catWalk g st cat'.id false (childrenOf g cat'.id))).count
              (WalkEvent.chan i) = 0 := by
          rw [List.count_eq_zero]
          intro hev
          rw [List.mem_flatMap] at hev
          obtain ⟨cat', _hcat', hev2⟩ := hev
          obtain ⟨x, hx, hxi, _hxq⟩ := catWalk_chan_mem g st cat'.id i false _ hev2
          obtain ⟨hxg, hxp⟩ := hchild_mem cat'.id x hx
          rw [huniq x hxg hxi, hpid] at hxp
          cases hxp
        have h1 := topLevel_count_le_one g st hnd i
        omega
      | some p =>
        have h1 : (topLevelEvents g st).count (WalkEvent.chan i) = 0 := by
          rw [List.count_eq_zero]
          intro hev
          obtain ⟨x, hxg, hxi, hxp⟩ := topLevel_chan_mem g st i hev
          rw [huniq x hxg hxi, hpid] at hxp
          cases hxp
        have h2 : ((categoryList g).flatMap (fun cat' =>
            catWalk g st cat'.id false (childrenOf g cat'.id))).count
              (WalkEvent.chan i)
            ≤ ((categoryList g).map GChannel.id).count p := by
          apply flatMap_chanCount_le
          · intro cat' _hcat' hne
            apply hcat_count_zero
            rw [hpid]
            intro hcontra
            exact hne (Option.some.inj hcontra).symm
          · intro cat' _hcat'
            exact hcat_count_le_one cat'
        have h3 : ((categoryList g).map GChannel.id).count p ≤ 1 := by
          have hsub : List.Sublist ((categoryList g).map GChannel.id)
              (g.channels.map GChannel.id) := (List.filter_sublist _).map _
          exact le_trans (hsub.count_le _) (List.nodup_iff_count_le_one.mp hnd p)
        omega
    · push_neg at hex
      have h1 : (topLevelEvents g st).count (WalkEvent.chan i) = 0 := by
        rw [List.count_eq_zero]
        intro hev
        obtain ⟨x, hxg, hxi, _⟩ := topLevel_chan_mem g st i hev
        exact hex x hxg hxi
      have h2 : ((categoryList g).flatMap (fun cat' =>
          catWalk g st cat'.id false (childrenOf g cat'.id))).count
            (WalkEvent.chan i) = 0 := by
        rw [List.count_eq_zero]
        intro hev
        rw [List.mem_flatMap] at hev
        obtain ⟨cat', _hcat', hev2⟩ := hev
        obtain ⟨x, hx, hxi, _⟩ := catWalk_chan_mem g st cat'.id i false _ hev2
        rw [childrenOf, List.mem_filter] at hx
        exact hex x hx.1 hxi
      omega

/-- Witness for C8 at the concrete guild gW: category 99 has no children
so is never announced, category 1 is announced exactly once immediately
before its first qualifying child 2, and channel 2 is visited at most
once. -/
theorem C8_walk_category_laziness_witness :
    WalkEvent.cat 99 ∉ iterateGuildStructure gW stW ∧
    (∃ e1 e2, iterateGuildStructure gW stW
        = e1 ++ WalkEvent.cat 1 :: WalkEvent.chan 2 :: e2
      ∧ WalkEvent.cat 1 ∉ e1 ∧ WalkEvent.cat 1 ∉ e2) ∧
    (iterateGuildStructure gW stW).count (WalkEvent.chan 2) ≤ 1 := by
  have h := C8_walk_category_laziness gW stW (by decide)
  refine ⟨h.1 99 (by decide), ?_, h.2.2 2⟩
  exact h.2.1 ⟨1, GChanKind.category, none, true⟩ (by decide) rfl rfl []
    ⟨2, GChanKind.text, some 1, true⟩ [⟨4, GChanKind.text, some 1, false⟩]
    (by decide) (by decide) (by decide)
